import Mathlib

/-!
Shallow embedding of the audio-reactive TTS core of
`laces-total-tts-bot` (file `src/tts_manager.py`, plus the speech
dispatch in `src/chatbot_engine.py`).

Conventions of the embedding:
* Python floats are modelled as exact rationals `ℚ`; a float division
  whose divisor is zero (NaN/inf in numpy) is modelled by `Option ℚ`
  with `none` standing for the non-finite result.
* `np.sqrt` is abstracted as a parameter `f : ℚ → ℚ`; the theorems
  assume only the facts about square roots they need
  (nonnegativity on nonnegative inputs, `f 0 = 0`).
* Python `int(x)` (truncation toward zero) is `pyInt`.
* The decoded PCM input of `_analyze_audio_file` is taken after the
  format-specific decoding: either a mono sample list or a
  frames-by-channels matrix (the shape scipy's `wavfile.read`
  produces for multi-channel WAV input); `none` models a decode
  failure (the `except` branches that set `self.audio_data = None`).
-/

/-- Python `int(q)`: truncation toward zero. -/
def pyInt (q : ℚ) : ℤ := if 0 ≤ q then ⌊q⌋ else ⌈q⌉

/-- Float division, with `none` modelling the non-finite result
(NaN or inf) that numpy produces when the divisor is `0.0`. -/
def qdiv (a b : ℚ) : Option ℚ := if b = 0 then none else some (a / b)

/-- Arithmetic mean, `np.mean` of a list. -/
def qmean (l : List ℚ) : ℚ := l.sum / l.length

/-- Result of `TTSManager._analyze_audio_file` stored in
`self.audio_data` (the dict built at lines 203-208 of
`src/tts_manager.py`). -/
structure AudioData where
  volume_envelope : List ℚ
  sample_rate : ℕ
  window_duration : ℚ
  max_volume : ℚ
  deriving Repr, DecidableEq

/-- One window `samples[i:i+window_size]`. -/
def windowAt (samples : List ℚ) (i ws : ℕ) : List ℚ :=
  (samples.drop i).take ws

/-- RMS of one window, `rms = np.sqrt(np.mean(window ** 2))`, with
`f` standing for `np.sqrt`. -/
def rmsOf (f : ℚ → ℚ) (window : List ℚ) : ℚ :=
  f (qmean (window.map (fun x => x * x)))

/-- Number of iterations of `range(0, n - ws, hs)` in Python
(`n - ws` computed in ℤ; empty when `n ≤ ws`): `⌈(n - ws) / hs⌉`. -/
def numWindows (n ws hs : ℕ) : ℕ := (n - ws + hs - 1) / hs

/-- The window start indices `range(0, len(samples) - window_size,
hop_size)` of `_analyze_audio_file`. -/
def windowStarts (n ws hs : ℕ) : List ℕ :=
  (List.range (numWindows n ws hs)).map (fun k => k * hs)

/-- Decoded PCM input: mono samples, or a frames × channels matrix. -/
def Decoded := List ℚ ⊕ List (List ℚ)

/-- Lines 191-192 of `src/tts_manager.py`:
`if len(samples.shape) > 1: samples = np.mean(samples, axis=1)` —
multi-channel input is averaged per frame into mono. -/
def collapseChannels (d : Decoded) : List ℚ :=
  match d with
  | .inl mono => mono
  | .inr frames => frames.map qmean

/-- The envelope loop at lines 197-201: for each window start
compute the RMS of the window and append it. -/
def envelopeOf (f : ℚ → ℚ) (samples : List ℚ) (ws hs : ℕ) : List ℚ :=
  (windowStarts samples.length ws hs).map (fun i => rmsOf f (windowAt samples i ws))

/-- Packaging of the envelope into the `self.audio_data` dict
(lines 203-208): `window_duration` is the hop duration `0.01` and
`max_volume` is `max(volume_envelope) if volume_envelope else 1.0`
(Python's `max` of a nonempty list is `List.max?`). -/
def mkAudioData (envelope : List ℚ) (sample_rate : ℕ) : AudioData :=
  { volume_envelope := envelope
    sample_rate := sample_rate
    window_duration := 1 / 100
    max_volume := envelope.max?.getD 1 }

/-- Core of `TTSManager._analyze_audio_file` after decoding
(lines 191-210), with `window_size = int(sample_rate * 0.02)` and
`hop_size = int(sample_rate * 0.01)`.  `none` models
`self.audio_data = None`: decode failure, or the `ValueError` that
`range` raises when `hop_size` is `0` (swallowed by the enclosing
`except Exception`). -/
def analyze_audio_file (f : ℚ → ℚ) (decoded : Option Decoded) (sample_rate : ℕ) :
    Option AudioData :=
  match decoded with
  | none => none
  | some d =>
    if sample_rate / 100 = 0 then none
    else
      some (mkAudioData
        (envelopeOf f (collapseChannels d) (sample_rate * 2 / 100) (sample_rate / 100))
        sample_rate)

/-- Embedding of `TTSManager._get_volume_at_position` (lines 288-297).
`none` audio data (extraction failed) gives the constant `0.5`;
otherwise `window_idx = int(position / window_duration)` selects an
envelope sample, normalized by `max_volume` (a float division that
is non-finite when `max_volume = 0.0`), and positions past the end
of the envelope give `0.0`. -/
def get_volume_at_position (audio_data : Option AudioData) (position : ℚ) :
    Option ℚ :=
  match audio_data with
  | none => some (1 / 2)
  | some d =>
    if 0 ≤ pyInt (position / d.window_duration) then
      match d.volume_envelope[(pyInt (position / d.window_duration)).toNat]? with
      | some e => qdiv e d.max_volume
      | none => some 0
    else some 0

/-- The transition decision taken by one tick of
`TTSManager._monitor_volume_realtime` (lines 265-282): given the
current state (`last_state`, `true` = Active), the smoothed volume,
the threshold, the elapsed time `d` since the last transition, and
the two dwell times, return the new state and whether a transition
fired.  `min_silence` guards entering Active, `min_speech` guards
entering Silent. -/
def activityDecide (last_state : Bool) (v t d min_speech min_silence : ℚ) :
    Bool × Bool :=
  let is_active : Bool := decide (v > t)
  if is_active ≠ last_state then
    if is_active && decide (d ≥ min_silence) then (true, true)
    else if !is_active && decide (d ≥ min_speech) then (false, true)
    else (last_state, false)
  else (last_state, false)

/-- One tick's environment for the Volume Monitor loop: the values
of the flags `self.stop_monitoring` / `self.is_playing` read at the
top of the `while`, the playback position
`pygame.mixer.music.get_pos() / 1000.0`, the wall clock
`time.time()`, and whether the registered avatar callbacks
(`self.on_audio_active` / `self.on_audio_silent`) raise an
exception when invoked on this tick. -/
structure TickEnv where
  stop_monitoring : Bool
  is_playing : Bool
  playback_pos : ℚ
  now : ℚ
  active_raises : Bool
  silent_raises : Bool
  deriving Repr, DecidableEq

/-- Mutable state touched by `_monitor_volume_realtime`: the locals
`last_state` / `state_start_time` and the object fields
`self.volume_history`, `self.current_volume`, `self.audio_active`.
Volumes are `Option ℚ` because a NaN (from `0.0/0.0` normalization)
can enter the history. -/
structure MonState where
  last_state : Bool
  state_start_time : ℚ
  volume_history : List (Option ℚ)
  current_volume : Option ℚ
  audio_active : Bool
  deriving Repr, DecidableEq

/-- Events observable from the monitor loop: invocations of the
registered `on_audio_active` / `on_audio_silent` callbacks. -/
inductive MEvent
  | onActive
  | onSilent
  deriving Repr, DecidableEq

/-- Why the monitor loop returned: the `while` condition turned
false (`flagExit`), the supplied list of tick environments ran out
(`exhausted`, the real loop would keep ticking), or the
`except Exception: break` at line 285-286 fired (`excBreak`). -/
inductive MExit
  | flagExit
  | exhausted
  | excBreak
  deriving Repr, DecidableEq

/-- Mean of a smoothing buffer that may contain NaN entries;
`np.mean` of an array containing NaN is NaN (`none`). -/
def omean (l : List (Option ℚ)) : Option ℚ :=
  if l.any Option.isNone then none else some (qmean l.reduceOption)

/-- Body of one iteration of `_monitor_volume_realtime`
(lines 256-284): look up the raw volume, update
`self.current_volume` and the 5-sample smoothing buffer, compare
the smoothed volume with the threshold and, guarded by the dwell
times, fire a transition.  `self.audio_active` is written before
the callback is invoked, so when the callback raises the
`last_state` / `state_start_time` updates after it do not run.
Returns the new state, the callbacks invoked, and whether an
exception escaped the body (to be caught by the `except`). -/
def monitorTick (threshold min_speech min_silence : ℚ)
    (audio_data : Option AudioData) (s : MonState) (e : TickEnv) :
    MonState × List MEvent × Bool :=
  let volume := get_volume_at_position audio_data e.playback_pos
  let hist0 := s.volume_history ++ [volume]
  let hist := if 5 < hist0.length then hist0.tail else hist0
  let is_active : Bool :=
    match omean hist with
    | none => false
    | some v => decide (v > threshold)
  let state_duration := e.now - s.state_start_time
  let s1 := { s with current_volume := volume, volume_history := hist }
  if is_active ≠ s.last_state then
    if is_active then
      if state_duration ≥ min_silence then
        let s2 := { s1 with audio_active := true }
        if e.active_raises then (s2, [MEvent.onActive], true)
        else ({ s2 with last_state := true, state_start_time := e.now },
              [MEvent.onActive], false)
      else (s1, [], false)
    else
      if state_duration ≥ min_speech then
        let s2 := { s1 with audio_active := false }
        if e.silent_raises then (s2, [MEvent.onSilent], true)
        else ({ s2 with last_state := false, state_start_time := e.now },
              [MEvent.onSilent], false)
      else (s1, [], false)
  else (s1, [], false)

/-- The `while not self.stop_monitoring and self.is_playing` loop of
`_monitor_volume_realtime` (lines 254-286), run over a finite list
of tick environments.  A body exception is caught by
`except Exception: break`: the loop returns normally with
`MExit.excBreak` and the remaining ticks are never processed. -/
def monitorRun (threshold min_speech min_silence : ℚ)
    (audio_data : Option AudioData) :
    MonState → List TickEnv → MonState × List MEvent × MExit
  | s, [] => (s, [], MExit.exhausted)
  | s, e :: rest =>
    if e.stop_monitoring || !e.is_playing then (s, [], MExit.flagExit)
    else
      match monitorTick threshold min_speech min_silence audio_data s e with
      | (s1, evs, true) => (s1, evs, MExit.excBreak)
      | (s1, evs, false) =>
        let r := monitorRun threshold min_speech min_silence audio_data s1 rest
        (r.1, evs ++ r.2.1, r.2.2)

/-- Fields of `TTSManager` relevant to the embedded operations
(initialized at lines 95-114). -/
structure TTSState where
  volume_threshold : ℚ
  min_speech_duration : ℚ
  min_silence_duration : ℚ
  current_volume : Option ℚ
  volume_history : List (Option ℚ)
  audio_data : Option AudioData
  is_playing : Bool
  audio_active : Bool
  deriving Repr, DecidableEq

/-- Field values set by `TTSManager.__init__`:
`volume_threshold = 0.01`, `min_speech_duration = 0.05`,
`min_silence_duration = 0.1`, `current_volume = 0.0`,
`volume_history = []`, `audio_data = None`, flags false. -/
def initState : TTSState :=
  { volume_threshold := 1 / 100
    min_speech_duration := 1 / 20
    min_silence_duration := 1 / 10
    current_volume := some 0
    volume_history := []
    audio_data := none
    is_playing := false
    audio_active := false }

/-- Embedding of `TTSManager.set_volume_threshold` (lines 122-124):
stores `max(0.0, min(1.0, threshold))`. -/
def set_volume_threshold (s : TTSState) (threshold : ℚ) : TTSState :=
  { s with volume_threshold := max 0 (min 1 threshold) }

/-- Embedding of `TTSManager.get_current_volume` (lines 299-301):
returns `self.current_volume` (an `Option ℚ`: `none` is a NaN
float). -/
def get_current_volume (s : TTSState) : Option ℚ :=
  s.current_volume

/-- Characters removed by Python's default `str.strip()` for ASCII
text (the whitespace characters). -/
def pyIsSpace (c : Char) : Bool :=
  c = ' ' || c = '\t' || c = '\n' || c = '\x0b' || c = '\x0c' || c = '\r'

/-- Events observable from one `speak` call: the attempt to
synthesize, the per-call `callback_on_start` / `callback_on_end`,
the registered `on_audio_start` / `on_audio_end`, and the monitor
callbacks. -/
inductive SEvent
  | synthAttempt
  | cbStart
  | cbEnd
  | audioStart
  | audioEnd
  | monEv (m : MEvent)
  deriving Repr, DecidableEq

/-- External environment of one `speak` call: the decoded audio the
TTS service produced for the text (`none` when the service call
failed or no file was produced), its sample rate, the tick
environments observed by the monitor thread during playback, and
the wall-clock time at monitor start. -/
structure SpeakEnv where
  synthesized : Option Decoded
  sample_rate : ℕ
  ticks : List TickEnv
  startTime : ℚ

/-- Embedding of `TTSManager._play_audio_with_volume_monitoring`
(lines 212-247): set `is_playing`, clear `audio_active` and
`volume_history`, fire `on_audio_start`, run the monitor thread
while blocking on `pygame.mixer.music.get_busy()`, then clear the
flags and fire `on_audio_end`. -/
def play_audio_with_volume_monitoring (s : TTSState) (ticks : List TickEnv)
    (startTime : ℚ) : TTSState × List SEvent :=
  let s1 := { s with is_playing := true, audio_active := false,
                     volume_history := [] }
  let m0 : MonState :=
    { last_state := false
      state_start_time := startTime
      volume_history := s1.volume_history
      current_volume := s1.current_volume
      audio_active := s1.audio_active }
  let r := monitorRun s.volume_threshold s.min_speech_duration
             s.min_silence_duration s.audio_data m0 ticks
  ({ s1 with is_playing := false, audio_active := false,
             volume_history := r.1.volume_history,
             current_volume := r.1.current_volume },
   SEvent.audioStart :: (r.2.1.map SEvent.monEv) ++ [SEvent.audioEnd])

/-- Embedding of `TTSManager.speak` (lines 126-159): return
immediately when `not text.strip()`; otherwise synthesize, and when
an audio file was produced fire `callback_on_start`, analyze the
file into `self.audio_data`, play it with volume monitoring, and
fire `callback_on_end`. -/
def speak (f : ℚ → ℚ) (env : SpeakEnv) (s : TTSState) (text : String) :
    TTSState × List SEvent :=
  if text.toList.all pyIsSpace then (s, [])
  else
    match env.synthesized with
    | none => (s, [SEvent.synthAttempt])
    | some d =>
      let s1 := { s with audio_data := analyze_audio_file f (some d) env.sample_rate }
      let r := play_audio_with_volume_monitoring s1 env.ticks env.startTime
      (r.1, SEvent.synthAttempt :: SEvent.cbStart :: r.2 ++ [SEvent.cbEnd])

/-- Per-utterance events in the concurrency model of
`ChatbotEngine._speak_response` (src/chatbot_engine.py lines
408-439): every call spawns a fresh daemon thread running
`self.tts.speak(...)`, which performs, in thread-program order,
synthesis, the `callback_on_start` invocation (`uStart`), playback,
and the `callback_on_end` invocation (`uEnd`).  No lock, queue or
other synchronization relates two such threads in the source. -/
inductive UEvent
  | synthDone
  | uStart
  | uEnd
  deriving Repr, DecidableEq

/-- The ordered event program each spawned speak thread executes. -/
def speakThreadProg : List UEvent :=
  [UEvent.synthDone, UEvent.uStart, UEvent.uEnd]

/-- Validity of a global trace as an interleaving of per-thread
programs: walk the trace, consuming each `(thread, event)` pair
from the front of that thread's remaining program; the trace is
valid when every pair matches and all programs are fully consumed.
This is the whole constraint the source places on concurrent
`_speak_response` calls, since they share no synchronization. -/
def consumeTrace : List (List UEvent) → List (ℕ × UEvent) → Bool
  | rem, [] => rem.all List.isEmpty
  | rem, (i, e) :: rest =>
    match rem[i]? with
    | some (e₀ :: tl) =>
      if e₀ = e then consumeTrace (rem.set i tl) rest else false
    | _ => false

/-- Projection of a global trace onto one thread's events. -/
def threadEvents (i : ℕ) (trace : List (ℕ × UEvent)) : List UEvent :=
  trace.filterMap (fun p => if p.1 = i then some p.2 else none)

/-- A concrete schedule of two speak threads (utterance 0 submitted
before utterance 1) in which utterance 1's `callback_on_start`
fires while utterance 0 is still playing. -/
def overlapTrace : List (ℕ × UEvent) :=
  [(0, UEvent.synthDone), (0, UEvent.uStart), (1, UEvent.synthDone),
   (1, UEvent.uStart), (0, UEvent.uEnd), (1, UEvent.uEnd)]

/-- Decoded PCM of a fully silent clip: 10 zero samples (mono). -/
def silentDecoded : Decoded := Sum.inl (List.replicate 10 0)

/-- The `self.audio_data` the source builds for `silentDecoded` at
sample rate 100: 8 windows of RMS `0`, and `max_volume = 0`
(the envelope is nonempty, so the `else 1.0` arm is not taken). -/
def dSilent : AudioData :=
  { volume_envelope := List.replicate 8 0
    sample_rate := 100
    window_duration := 1 / 100
    max_volume := 0 }

/-- A concrete envelope for exercising `_get_volume_at_position`. -/
def dW : AudioData :=
  { volume_envelope := [1 / 2, 1 / 4]
    sample_rate := 100
    window_duration := 1 / 100
    max_volume := 1 / 2 }

/-- A tick on which the loop keeps running and no callback raises:
playback at position 0, one second after the last transition. -/
def tickCalm : TickEnv :=
  { stop_monitoring := false
    is_playing := true
    playback_pos := 0
    now := 1
    active_raises := false
    silent_raises := false }

/-- Like `tickCalm`, but the registered `on_audio_active` callback
raises when invoked. -/
def tickRaise : TickEnv :=
  { tickCalm with active_raises := true }

/-- The monitor-thread state at loop entry (lines 251-252) for a
manager fresh from `__init__`. -/
def monInit : MonState :=
  { last_state := false
    state_start_time := 0
    volume_history := []
    current_volume := some 0
    audio_active := false }

/-- A `speak` environment whose synthesized audio is the silent
clip, played through one calm monitor tick. -/
def silentEnv : SpeakEnv :=
  { synthesized := some silentDecoded
    sample_rate := 100
    ticks := [tickCalm]
    startTime := 0 }

/-- A `speak` environment in which synthesis would fail; used for
calls that are expected to return before reaching it. -/
def failEnv : SpeakEnv :=
  { synthesized := none
    sample_rate := 0
    ticks := []
    startTime := 0 }

/-- Decoded PCM of a stereo clip: 4 frames × 2 channels. -/
def stereoDecoded : Decoded :=
  Sum.inr [[1, 0], [1, 0], [1, 0], [1, 0]]

instance : Std.Antisymm (fun x1 x2 => (x1 : ℚ) ≤ x2) :=
  ⟨fun h₁ h₂ => le_antisymm h₁ h₂⟩

theorem rat_max?_iff {l : List ℚ} {m : ℚ} :
    l.max? = some m ↔ m ∈ l ∧ ∀ b ∈ l, b ≤ m :=
  List.max?_eq_some_iff (le_refl) max_choice (fun _ _ _ => max_le_iff)

theorem qmean_sq_nonneg (l : List ℚ) : 0 ≤ qmean (l.map fun x => x * x) := by
  unfold qmean
  apply div_nonneg
  · apply List.sum_nonneg
    intro x hx
    obtain ⟨y, _, rfl⟩ := List.mem_map.mp hx
    exact mul_self_nonneg y
  · exact_mod_cast Nat.zero_le _

theorem rmsOf_zero (f : ℚ → ℚ) (w : List ℚ) (hw : ∀ x ∈ w, x = 0) :
    rmsOf f w = f 0 := by
  unfold rmsOf qmean
  have hsum : (w.map fun x => x * x).sum = 0 := by
    apply List.sum_eq_zero
    intro x hx
    obtain ⟨y, hy, rfl⟩ := List.mem_map.mp hx
    rw [hw y hy, mul_zero]
  rw [hsum, zero_div]

theorem envelopeOf_replicate_zero (f : ℚ → ℚ) (n ws hs : ℕ) :
    envelopeOf f (List.replicate n (0 : ℚ)) ws hs =
      List.replicate (numWindows n ws hs) (f 0) := by
  unfold envelopeOf
  rw [List.map_congr_left (g := fun _ => f 0), List.map_const']
  · rw [windowStarts, List.length_map, List.length_range, List.length_replicate]
  · intro i _
    apply rmsOf_zero
    intro x hx
    exact List.eq_of_mem_replicate
      (List.mem_of_mem_drop (List.mem_of_mem_take hx))

theorem analyze_replicate_zero (f : ℚ → ℚ) (n sr : ℕ) (h : sr / 100 ≠ 0) :
    analyze_audio_file f (some (Sum.inl (List.replicate n (0 : ℚ)))) sr =
      some (mkAudioData
        (List.replicate (numWindows n (sr * 2 / 100) (sr / 100)) (f 0)) sr) := by
  unfold analyze_audio_file
  dsimp only [collapseChannels]
  rw [if_neg h, envelopeOf_replicate_zero]

theorem max?_replicate_zero (n : ℕ) (h : n ≠ 0) :
    (List.replicate n (0 : ℚ)).max? = some 0 := by
  apply rat_max?_iff.mpr
  constructor
  · exact List.mem_replicate.mpr ⟨h, rfl⟩
  · intro b hb
    rw [List.eq_of_mem_replicate hb]

theorem analyze_silent_eq :
    analyze_audio_file id (some silentDecoded) 100 = some dSilent := by
  rw [silentDecoded, analyze_replicate_zero id 10 100 (by norm_num)]
  have h8 : numWindows 10 (100 * 2 / 100) (100 / 100) = 8 := rfl
  rw [h8]
  unfold mkAudioData dSilent
  simp only [id_eq]
  rw [max?_replicate_zero 8 (by norm_num)]
  rfl

/-- C2: on a monitor tick with smoothed volume `v`, threshold `t`,
current state `s` and elapsed time `d` since the last transition,
the decision of `_monitor_volume_realtime` transitions
Silent→Active exactly when `v > t` and `d ≥ min_silence_duration`
(the silent-side dwell), Active→Silent exactly when `v ≤ t` and
`d ≥ min_speech_duration` (the active-side dwell), and in every
other case fires no transition and leaves the state unchanged. -/
theorem activity_transition_characterization (s : Bool) (v t d msp msl : ℚ) :
    (activityDecide s v t d msp msl = (true, true) ↔ s = false ∧ t < v ∧ msl ≤ d) ∧
    (activityDecide s v t d msp msl = (false, true) ↔ s = true ∧ v ≤ t ∧ msp ≤ d) ∧
    ((activityDecide s v t d msp msl).2 = false →
      activityDecide s v t d msp msl = (s, false)) := by
  unfold activityDecide
  rcases s with _ | _ <;>
    by_cases h1 : t < v <;> by_cases h2 : msl ≤ d <;> by_cases h3 : msp ≤ d <;>
    simp [h1, h2, h3, not_lt.mp, le_of_not_lt, not_le.mp, GE.ge]

/-- Witness for C2 at concrete inputs: a silent state with loud
smoothed volume and expired dwell transitions to Active, and an
active state with quiet volume and expired dwell transitions to
Silent. -/
theorem activity_transition_characterization_witness :
    activityDecide false (1 / 2) (1 / 100) 1 (1 / 20) (1 / 10) = (true, true) ∧
    activityDecide true 0 (1 / 100) 1 (1 / 20) (1 / 10) = (false, true) :=
  ⟨((activity_transition_characterization false (1 / 2) (1 / 100) 1 (1 / 20) (1 / 10)).1).mpr
      ⟨rfl, by norm_num, by norm_num⟩,
   ((activity_transition_characterization true 0 (1 / 100) 1 (1 / 20) (1 / 10)).2.1).mpr
      ⟨rfl, by norm_num, by norm_num⟩⟩

/-- C9: for every argument `t`, after `set_volume_threshold t` the
stored threshold equals `max(0.0, min(1.0, t))`, hence always lies
in `[0, 1]`. -/
theorem set_volume_threshold_clamps (s : TTSState) (t : ℚ) :
    (set_volume_threshold s t).volume_threshold = max 0 (min 1 t) ∧
    0 ≤ (set_volume_threshold s t).volume_threshold ∧
    (set_volume_threshold s t).volume_threshold ≤ 1 :=
  ⟨rfl, le_max_left 0 (min 1 t), max_le zero_le_one (min_le_left 1 t)⟩

/-- C10: when the text passed to `speak` is empty or whitespace-only,
`speak` returns immediately: no synthesis is attempted, no events
fire (no callbacks run) and the manager state is unchanged. -/
theorem speak_whitespace_noop (f : ℚ → ℚ) (env : SpeakEnv) (s : TTSState)
    (text : String) (h : text.toList.all pyIsSpace = true) :
    speak f env s text = (s, []) := by
  unfold speak
  rw [if_pos h]

/-- Witness for C10: a concrete whitespace-only text on the freshly
initialized manager. -/
theorem speak_whitespace_noop_witness :
    speak id failEnv initState " \t " = (initState, []) :=
  speak_whitespace_noop id failEnv initState " \t " (by decide)

/-- C4: for every queried playback position, `_get_volume_at_position`
returns the fallback constant `0.5` when envelope extraction failed
(`audio_data = None`); when `floor(position / window_duration)` is a
valid envelope index it returns that envelope sample divided by the
stored `max_volume` (the float division, non-finite when
`max_volume = 0`); and when the index falls past the end of the
envelope it returns `0.0`. -/
theorem get_volume_at_position_cases (d : AudioData) (pos : ℚ) :
    get_volume_at_position none pos = some (1 / 2) ∧
    (∀ i : ℕ, ⌊pos / d.window_duration⌋ = (i : ℤ) →
      ∀ e, d.volume_envelope[i]? = some e →
        get_volume_at_position (some d) pos = qdiv e d.max_volume) ∧
    ((d.volume_envelope.length : ℤ) ≤ ⌊pos / d.window_duration⌋ →
      get_volume_at_position (some d) pos = some 0) := by
  refine ⟨rfl, ?_, ?_⟩
  · intro i hfloor e he
    have hnn : (0 : ℤ) ≤ ⌊pos / d.window_duration⌋ := by
      rw [hfloor]; exact Int.ofNat_nonneg i
    have hq : 0 ≤ pos / d.window_duration := Int.floor_nonneg.mp hnn
    have hpy : pyInt (pos / d.window_duration) = (i : ℤ) := by
      rw [pyInt, if_pos hq, hfloor]
    simp only [get_volume_at_position]
    rw [hpy, if_pos (Int.ofNat_nonneg i), Int.toNat_natCast, he]
  · intro hge
    have hnn : (0 : ℤ) ≤ ⌊pos / d.window_duration⌋ :=
      le_trans (Int.ofNat_nonneg _) hge
    have hq : 0 ≤ pos / d.window_duration := Int.floor_nonneg.mp hnn
    have hpy : pyInt (pos / d.window_duration) = ⌊pos / d.window_duration⌋ := by
      rw [pyInt, if_pos hq]
    simp only [get_volume_at_position]
    rw [hpy, if_pos hnn, List.getElem?_eq_none (by omega)]

/-- Witness for C4 at a concrete envelope: position `0` hits index
`0` and returns `envelope[0] / max_volume`; position `1` (index
`100`, past the 2-sample envelope) returns `0.0`. -/
theorem get_volume_at_position_cases_witness :
    get_volume_at_position (some dW) 0 = qdiv (1 / 2) (1 / 2) ∧
    get_volume_at_position (some dW) 1 = some 0 := by
  constructor
  · apply (get_volume_at_position_cases dW 0).2.1 0
    · show ⌊(0 : ℚ) / dW.window_duration⌋ = 0
      norm_num
    · rfl
  · apply (get_volume_at_position_cases dW 1).2.2
    show ((dW.volume_envelope.length : ℤ)) ≤ ⌊(1 : ℚ) / dW.window_duration⌋
    have : ⌊(1 : ℚ) / dW.window_duration⌋ = 100 := by
      rw [show dW.window_duration = 1 / 100 from rfl]
      norm_num
    rw [this]
    norm_num [dW]

/-- C3 (amended): for every successfully decoded input, every sample
of the extracted envelope is nonnegative, and the stored
`max_volume` is the true maximum of the envelope samples when the
envelope is nonempty — but it equals `1.0` only when the envelope
is EMPTY (input shorter than `window_size + 1` samples), not for an
all-silent clip, whose nonempty all-zero envelope stores
`max_volume = 0.0`. -/
theorem analyze_envelope_nonneg_max (f : ℚ → ℚ) (hf : ∀ x, 0 ≤ x → 0 ≤ f x)
    (dec : Decoded) (sr : ℕ) (d : AudioData)
    (h : analyze_audio_file f (some dec) sr = some d) :
    (∀ v ∈ d.volume_envelope, 0 ≤ v) ∧
    (d.volume_envelope = [] → d.max_volume = 1) ∧
    (∀ m, d.volume_envelope.max? = some m →
      d.max_volume = m ∧ m ∈ d.volume_envelope ∧ ∀ v ∈ d.volume_envelope, v ≤ m) := by
  simp only [analyze_audio_file] at h
  by_cases hz : sr / 100 = 0
  · rw [if_pos hz] at h
    exact absurd h (by simp)
  · rw [if_neg hz] at h
    obtain rfl : mkAudioData (envelopeOf f (collapseChannels dec)
        (sr * 2 / 100) (sr / 100)) sr = d := Option.some.inj h
    refine ⟨?_, ?_, ?_⟩
    · intro v hv
      simp only [mkAudioData] at hv
      obtain ⟨i, _, rfl⟩ := List.mem_map.mp hv
      exact hf _ (qmean_sq_nonneg _)
    · intro hemp
      simp only [mkAudioData] at hemp ⊢
      rw [hemp, List.max?_nil]
      rfl
    · intro m hm
      simp only [mkAudioData] at hm ⊢
      refine ⟨?_, (rat_max?_iff.mp hm).1, (rat_max?_iff.mp hm).2⟩
      rw [hm]
      rfl

/-- Counterexample for C3 as stated: the all-silent 10-sample clip
decodes to a nonempty all-zero envelope whose stored `max_volume`
is `0.0`, not the claimed `1.0`. -/
theorem analyze_all_silent_counterexample :
    analyze_audio_file id (some silentDecoded) 100 = some dSilent ∧
    dSilent.volume_envelope ≠ [] ∧
    dSilent.max_volume = 0 ∧ (0 : ℚ) ≠ 1 := by
  refine ⟨analyze_silent_eq, by decide, rfl, by norm_num⟩

/-- Witness for C3 at the silent clip: the theorem applied with
`f := np.sqrt` replaced by the identity (which is nonnegative on
nonnegative inputs) yields that the stored maximum is the true
envelope maximum `0`. -/
theorem analyze_envelope_nonneg_max_witness :
    dSilent.max_volume = 0 ∧ (0 : ℚ) ∈ dSilent.volume_envelope := by
  have h := analyze_envelope_nonneg_max id (fun x hx => hx) silentDecoded 100 dSilent
    analyze_silent_eq
  have hm := h.2.2 0 (max?_replicate_zero 8 (by norm_num))
  exact ⟨hm.1, hm.2.1⟩

/-- C7 (amended): multi-channel input is NOT rejected: the extractor
itself averages the channels into one mono signal (the per-frame
mean, `np.mean(samples, axis=1)`) and proceeds exactly as for the
averaged mono input. -/
theorem analyze_multichannel_averages (f : ℚ → ℚ) (frames : List (List ℚ)) (sr : ℕ) :
    analyze_audio_file f (some (Sum.inr frames)) sr =
      analyze_audio_file f (some (Sum.inl (frames.map qmean))) sr := rfl

/-- Counterexample for C7 as stated: a 4-frame stereo clip is
accepted (extraction returns audio data rather than any error) and
is processed as the per-frame channel average. -/
theorem multichannel_accepted_counterexample :
    (analyze_audio_file id (some stereoDecoded) 100).isSome = true ∧
    analyze_audio_file id (some stereoDecoded) 100 =
      analyze_audio_file id (some (Sum.inl ([[1, 0], [1, 0], [1, 0], [1, 0]].map qmean))) 100 := by
  refine ⟨?_, rfl⟩
  rw [show analyze_audio_file id (some stereoDecoded) 100 =
      analyze_audio_file id (some (Sum.inl ([[1, 0], [1, 0], [1, 0], [1, 0]].map qmean))) 100 from rfl]
  simp only [analyze_audio_file]
  rw [if_neg (by norm_num)]
  rfl

/-- C6 (amended): `get_current_volume` reads the last value
`_get_volume_at_position` produced; that value lies in `[0, 1]`
whenever the envelope samples are nonnegative, bounded by the
stored `max_volume`, and `max_volume` is nonzero (or there is no
envelope at all).  For a reachable nonempty all-zero envelope the
normalization divides `0.0 / 0.0` and the result is NaN, outside
`[0, 1]`. -/
theorem get_volume_at_position_bounded (ad : Option AudioData) (pos : ℚ)
    (h₁ : ∀ d, ad = some d → ∀ v ∈ d.volume_envelope, 0 ≤ v)
    (h₂ : ∀ d, ad = some d → ∀ v ∈ d.volume_envelope, v ≤ d.max_volume)
    (h₃ : ∀ d, ad = some d → d.max_volume ≠ 0) :
    ∃ v, get_volume_at_position ad pos = some v ∧ 0 ≤ v ∧ v ≤ 1 := by
  rcases ad with _ | d
  · exact ⟨1 / 2, rfl, by norm_num, by norm_num⟩
  · simp only [get_volume_at_position]
    by_cases hw : 0 ≤ pyInt (pos / d.window_duration)
    · rw [if_pos hw]
      rcases hg : d.volume_envelope[(pyInt (pos / d.window_duration)).toNat]? with _ | e
      · exact ⟨0, rfl, le_refl 0, by norm_num⟩
      · have hmem := List.getElem?_mem hg
        have he0 : 0 ≤ e := h₁ d rfl e hmem
        have hele : e ≤ d.max_volume := h₂ d rfl e hmem
        have hmaxpos : 0 < d.max_volume :=
          lt_of_le_of_ne (le_trans he0 hele) (Ne.symm (h₃ d rfl))
        refine ⟨e / d.max_volume, ?_, div_nonneg he0 (le_of_lt hmaxpos),
          (div_le_one hmaxpos).mpr hele⟩
        show qdiv e d.max_volume = some (e / d.max_volume)
        rw [qdiv, if_neg (h₃ d rfl)]
    · rw [if_neg hw]
      exact ⟨0, rfl, le_refl 0, by norm_num⟩

/-- Witness for C6's bound at a concrete input: with no envelope the
fallback `0.5` is returned and lies in `[0, 1]`. -/
theorem get_volume_at_position_bounded_witness :
    ∃ v, get_volume_at_position none 7 = some v ∧ 0 ≤ v ∧ v ≤ 1 :=
  get_volume_at_position_bounded none 7 (fun d hd => nomatch hd)
    (fun d hd => nomatch hd) (fun d hd => nomatch hd)

theorem get_volume_silent_nan : get_volume_at_position (some dSilent) 0 = none := by
  simp only [get_volume_at_position]
  have h0 : pyInt ((0 : ℚ) / dSilent.window_duration) = 0 := by
    rw [pyInt, if_pos (by norm_num [dSilent])]
    norm_num [dSilent]
  rw [h0]
  norm_num [dSilent, qdiv]

/-- Counterexample for C6 as stated: speaking a fully silent clip is
a reachable state whose envelope is nonempty and all-zero with
`max_volume = 0.0`; on the first monitor tick the normalization
computes `0.0 / 0.0` (NaN), and `get_current_volume` then returns
that NaN — not a value in `[0, 1]`. -/
theorem get_current_volume_nan_counterexample :
    get_current_volume (speak id silentEnv initState "hello").1 = none := by
  simp only [speak]
  rw [if_neg (by decide)]
  simp only [silentEnv]
  rw [analyze_silent_eq]
  simp only [play_audio_with_volume_monitoring, monitorRun, monitorTick, tickCalm,
    initState, get_current_volume, get_volume_silent_nan]
  norm_num [omean]

theorem monitorTick_raise_eval :
    monitorTick (1 / 100) (1 / 20) (1 / 10) none monInit tickRaise =
      ((⟨false, 0, [some (1 / 2)], some (1 / 2), true⟩ : MonState),
       [MEvent.onActive], true) := by
  simp only [monitorTick, tickRaise, tickCalm, monInit, get_volume_at_position]
  norm_num [omean, qmean]

/-- C5 (amended): when a registered avatar callback raises during a
monitor tick, the exception is caught by the loop's
`except Exception` — it does not propagate out of the monitor
thread — but instead of continuing, the loop `break`s on that tick:
the remaining tick environments never influence the outcome, and
the loop reports `excBreak`. -/
theorem monitor_exception_stops_loop (th msp msl : ℚ) (ad : Option AudioData)
    (s : MonState) (e : TickEnv) (rest₁ rest₂ : List TickEnv)
    (hraise : (monitorTick th msp msl ad s e).2.2 = true) :
    monitorRun th msp msl ad s (e :: rest₁) = monitorRun th msp msl ad s (e :: rest₂) ∧
    (e.stop_monitoring = false → e.is_playing = true →
      (monitorRun th msp msl ad s (e :: rest₁)).2.2 = MExit.excBreak) := by
  rcases htick : monitorTick th msp msl ad s e with ⟨s1, evs, b⟩
  have hb : b = true := by rw [htick] at hraise; exact hraise
  subst hb
  by_cases hflag : (e.stop_monitoring || !e.is_playing) = true
  · constructor
    · simp only [monitorRun, hflag, if_true]
    · intro h1 h2
      rw [h1, h2] at hflag
      simp at hflag
  · constructor
    · simp only [monitorRun]
      rw [if_neg hflag, if_neg hflag, htick]
    · simp only [monitorRun]
      rw [if_neg hflag, htick]
      intro _ _
      rfl

/-- Witness for C5's amended behavior: a concrete raising tick
followed by an eligible calm tick gives the same run as the raising
tick alone, exiting with `excBreak`. -/
theorem monitor_exception_stops_loop_witness :
    monitorRun (1 / 100) (1 / 20) (1 / 10) none monInit [tickRaise, tickCalm] =
      monitorRun (1 / 100) (1 / 20) (1 / 10) none monInit [tickRaise] ∧
    (monitorRun (1 / 100) (1 / 20) (1 / 10) none monInit [tickRaise, tickCalm]).2.2
      = MExit.excBreak := by
  have h := monitor_exception_stops_loop (1 / 100) (1 / 20) (1 / 10) none monInit tickRaise
    [tickCalm] [] (by rw [monitorTick_raise_eval])
  exact ⟨h.1, h.2 rfl rfl⟩

/-- Counterexample for C5 as stated: after the raising tick, two
further ticks on which playback continues and monitoring was not
stopped are never processed — the run equals the one-tick run and
exits with `excBreak`, so the loop does not continue ticking. -/
theorem monitor_callback_exception_counterexample :
    tickCalm.stop_monitoring = false ∧ tickCalm.is_playing = true ∧
    monitorRun (1 / 100) (1 / 20) (1 / 10) none monInit [tickRaise, tickCalm, tickCalm] =
      monitorRun (1 / 100) (1 / 20) (1 / 10) none monInit [tickRaise] ∧
    (monitorRun (1 / 100) (1 / 20) (1 / 10) none monInit
        [tickRaise, tickCalm, tickCalm]).2.2 = MExit.excBreak := by
  have hstep : ∀ rest, monitorRun (1 / 100) (1 / 20) (1 / 10) none monInit (tickRaise :: rest)
      = ((⟨false, 0, [some (1 / 2)], some (1 / 2), true⟩ : MonState),
         [MEvent.onActive], MExit.excBreak) := by
    intro rest
    simp only [monitorRun]
    rw [if_neg (by decide), monitorTick_raise_eval]
  refine ⟨rfl, rfl, ?_, ?_⟩
  · rw [hstep, hstep]
  · rw [hstep]

/-- C1 (amended): each `_speak_response` call runs `tts.speak` on
its own freshly spawned daemon thread with no queue, lock or other
synchronization between utterances.  Within any valid interleaving
each single utterance's events keep their program order
(synthesis, then `callback_on_start`, then `callback_on_end`), but
across concurrently submitted utterances no FIFO or non-overlap
ordering is guaranteed. -/
theorem speak_threads_preserve_order (progs : List (List UEvent))
    (trace : List (ℕ × UEvent)) (h : consumeTrace progs trace = true)
    (i : ℕ) (es : List UEvent) (hi : progs[i]? = some es) :
    threadEvents i trace = es := by
  induction trace generalizing progs es with
  | nil =>
    have hmem := List.getElem?_mem hi
    have hemp : es.isEmpty = true := (List.all_eq_true.mp h) es hmem
    rw [List.isEmpty_iff] at hemp
    simp [threadEvents, hemp]
  | cons p rest ih =>
    obtain ⟨j, e⟩ := p
    simp only [consumeTrace] at h
    rcases hj : progs[j]? with _ | l
    · rw [hj] at h
      simp at h
    · rcases l with _ | ⟨e₀, tl⟩
      · rw [hj] at h
        simp at h
      · rw [hj] at h
        dsimp only at h
        by_cases he : e₀ = e
        · rw [if_pos he] at h
          subst he
          by_cases hij : j = i
          · subst hij
            rw [hj] at hi
            obtain rfl : e₀ :: tl = es := Option.some.inj hi
            have hset : (progs.set j tl)[j]? = some tl := by
              rw [List.getElem?_set_self', hj]
              rfl
            have hrest := ih (progs.set j tl) h tl hset
            simp only [threadEvents, List.filterMap_cons] at hrest ⊢
            simp [hrest]
          · have hset : (progs.set j tl)[i]? = some es := by
              rw [List.getElem?_set_ne hij, hi]
            have hrest := ih (progs.set j tl) h es hset
            simp only [threadEvents, List.filterMap_cons] at hrest ⊢
            simp [hij, hrest]
        · rw [if_neg he] at h
          simp at h

/-- Witness for C1's per-thread order preservation on the concrete
overlapping schedule: utterance 0's projected events are exactly
its thread program. -/
theorem speak_threads_preserve_order_witness :
    threadEvents 0 overlapTrace = speakThreadProg :=
  speak_threads_preserve_order [speakThreadProg, speakThreadProg] overlapTrace (by decide) 0
    speakThreadProg (by decide)

/-- Counterexample for C1 as stated: a valid interleaving of two
unsynchronized speak threads (utterance 0 submitted before
utterance 1) in which utterance 1's `callback_on_start` fires
strictly before utterance 0's `callback_on_end` — overlap the
claimed FIFO guarantee forbids. -/
theorem speak_threads_overlap_counterexample :
    consumeTrace [speakThreadProg, speakThreadProg] overlapTrace = true ∧
    overlapTrace.indexOf (1, UEvent.uStart) < overlapTrace.indexOf (0, UEvent.uEnd) :=
  ⟨by decide, by decide⟩

/-- C8 (amended): when the sample rate is a multiple of 100 — so
that `int(sample_rate * 0.02)` and `int(sample_rate * 0.01)` are
the exact window and hop sample counts — the extracted envelope
length is within ±1 of
`floor((num_samples / sample_rate - window_duration) / hop_duration) + 1`.
For sample rates not divisible by 100 the truncated integer hop
drifts from the exact hop duration and the deviation can be
arbitrarily large. -/
theorem envelope_length_within_one (f : ℚ → ℚ) (samples : List ℚ) (k : ℕ) (hk : 0 < k)
    (d : AudioData)
    (h : analyze_audio_file f (some (Sum.inl samples)) (100 * k) = some d) :
    |(d.volume_envelope.length : ℤ) -
      (⌊((samples.length : ℚ) / (100 * k) - 2 / 100) / (1 / 100)⌋ + 1)| ≤ 1 := by
  have hk100 : 100 * k / 100 = k := by omega
  have hws : 100 * k * 2 / 100 = 2 * k := by omega
  simp only [analyze_audio_file] at h
  rw [if_neg (by omega)] at h
  obtain rfl : mkAudioData (envelopeOf f (collapseChannels (Sum.inl samples))
      (100 * k * 2 / 100) (100 * k / 100)) (100 * k) = d := Option.some.inj h
  have hlen : (mkAudioData (envelopeOf f (collapseChannels (Sum.inl samples))
      (100 * k * 2 / 100) (100 * k / 100)) (100 * k)).volume_envelope.length
      = numWindows samples.length (2 * k) k := by
    simp only [mkAudioData, envelopeOf, windowStarts, collapseChannels,
      List.length_map, List.length_range, hk100, hws]
  rw [hlen]
  set n := samples.length with hn
  have hkQ : ((k : ℚ)) ≠ 0 := by
    exact_mod_cast hk.ne'
  have hfloor : ⌊((n : ℚ) / (100 * k) - 2 / 100) / (1 / 100)⌋ = ((n / k : ℕ) : ℤ) - 2 := by
    have h1 : ((n : ℚ) / (100 * k) - 2 / 100) / (1 / 100) = (n : ℚ) / k - 2 := by
      field_simp
      ring
    rw [h1, show ((2 : ℚ)) = ((2 : ℤ) : ℚ) by norm_num, Int.floor_sub_int,
      Rat.floor_natCast_div_natCast, ← Int.natCast_div]
  rw [hfloor, abs_le]
  rcases le_or_lt n (2 * k) with hn2 | hn2
  · have hW : numWindows n (2 * k) k = 0 := by
      unfold numWindows
      have h0 : n - 2 * k = 0 := by omega
      rw [h0]
      exact Nat.div_eq_of_lt (by omega)
    have hq2 : n / k ≤ 2 := by
      calc n / k ≤ 2 * k / k := Nat.div_le_div_right hn2
        _ = 2 := Nat.mul_div_cancel 2 hk
    rw [hW]
    generalize n / k = q at hq2 ⊢
    constructor <;> omega
  · have hq : n / k = (n - 2 * k) / k + 2 := by
      conv_lhs => rw [show n = (n - 2 * k) + 2 * k by omega]
      exact Nat.add_mul_div_right _ 2 hk
    have hWeq : numWindows n (2 * k) k = (n - 2 * k + k - 1) / k := rfl
    have hWlo : (n - 2 * k) / k ≤ (n - 2 * k + k - 1) / k :=
      Nat.div_le_div_right (by omega)
    have hWhi : (n - 2 * k + k - 1) / k ≤ (n - 2 * k) / k + 1 := by
      calc (n - 2 * k + k - 1) / k ≤ (n - 2 * k + k) / k := Nat.div_le_div_right (by omega)
        _ = (n - 2 * k) / k + 1 := Nat.add_div_right _ hk
    rw [hWeq, hq]
    generalize (n - 2 * k) / k = r at hWlo hWhi ⊢
    generalize (n - 2 * k + k - 1) / k = w at hWlo hWhi ⊢
    constructor <;> omega

/-- Counterexample for C8 as stated: at sample rate 150 (hop
`int(150 * 0.01) = 1` sample versus the exact 1.5 samples) a
100-sample clip yields an envelope of 97 samples while the claimed
formula gives 65 — far outside ±1. -/
theorem envelope_length_counterexample :
    (analyze_audio_file id (some (Sum.inl (List.replicate 100 (0 : ℚ)))) 150).map
        (fun d => d.volume_envelope.length) = some 97 ∧
    ⌊((100 : ℚ) / 150 - 2 / 100) / (1 / 100)⌋ + 1 = 65 ∧
    ¬(|(97 : ℤ) - 65| ≤ 1) := by
  refine ⟨?_, by norm_num, by decide⟩
  rw [analyze_replicate_zero id 100 150 (by norm_num)]
  rfl

/-- Witness for C8's amended bound: the 10-sample silent clip at
sample rate `100 * 1` has envelope length 8 against the formula
value 9 — within ±1. -/
theorem envelope_length_within_one_witness :
    |((dSilent.volume_envelope.length : ℤ)) -
      (⌊(((List.replicate 10 (0 : ℚ)).length : ℚ) / (100 * 1) - 2 / 100) / (1 / 100)⌋ + 1)| ≤ 1 :=
  envelope_length_within_one id (List.replicate 10 0) 1 (by norm_num) dSilent
    analyze_silent_eq
